import Mathlib

/-!
Verification of the chess-games analysis core (`utils.py`): the loader
`load_chess_data`, the preprocessor `preprocess_data` with its nested
`categorize_time_control`, and the ECO classifier `get_opening_category`.

Cells of the tabular data are modelled by the `Cell` type (`na` models a
missing value / NaN, `str` a string cell, `num` a numeric cell with exact
rational value, `dt` a parsed timestamp).  A dataframe is a list of named
columns.  Machine floats are modelled by `Rat`; every concrete value used
below is far enough from the category boundaries that double rounding
cannot change any comparison's outcome.
-/

set_option maxRecDepth 4000

namespace ChessGames

/-! ### Models of the Python string primitives the source uses

Lean's own `String.splitOn`/`String.trim` are not definitionally
reducible, so the Python semantics is transcribed directly over char
lists. -/

/-- Model of Python `str.split(sep)` for a one-character separator:
`"".split(sep) = [""]`, adjacent separators produce empty fields. -/
def pySplit (sep : Char) : List Char → List (List Char)
  | [] => [[]]
  | c :: rest =>
    if c = sep then [] :: pySplit sep rest
    else
      match pySplit sep rest with
      | [] => [[c]]
      | h :: t => (c :: h) :: t

/-- Model of Python `str.strip()` (whitespace stripping, as done by
`float(str)` on its argument). -/
def pyStrip (l : List Char) : List Char :=
  ((l.dropWhile Char.isWhitespace).reverse.dropWhile Char.isWhitespace).reverse

/-! ### Model of Python float(str) on finite decimal literals

Optional surrounding whitespace, optional sign, decimal digits with an
optional fractional part and an optional exponent.  The special forms
(inf, nan, underscore separators) never occur in the repository's
time-control data and are outside the model. -/

def digitsVal (cs : List Char) : Nat :=
  cs.foldl (fun a c => a * 10 + (c.toNat - 48)) 0

/-- Break a char list at the first char satisfying `t`; the second
component is the remainder after the separator when one is found. -/
def breakAt (t : Char → Bool) (l : List Char) : List Char × Option (List Char) :=
  match l.dropWhile (fun c => !(t c)) with
  | [] => (l.takeWhile (fun c => !(t c)), none)
  | _ :: rest => (l.takeWhile (fun c => !(t c)), some rest)

def parseSign : List Char → Int × List Char
  | '+' :: r => (1, r)
  | '-' :: r => (-1, r)
  | r => (1, r)

def parseFloatChars? (l : List Char) : Option Rat :=
  let cs := pyStrip l
  let sg := (parseSign cs).1
  let cs1 := (parseSign cs).2
  let mant := (breakAt (fun c => c = 'e' || c = 'E') cs1).1
  let expPart := (breakAt (fun c => c = 'e' || c = 'E') cs1).2
  let ip := (breakAt (fun c => c = '.') mant).1
  let fp := ((breakAt (fun c => c = '.') mant).2).getD []
  if ip.all Char.isDigit && fp.all Char.isDigit && (!ip.isEmpty || !fp.isEmpty) then
    match expPart with
    | none => some (mkRat (sg * (digitsVal (ip ++ fp) : Int)) (10 ^ fp.length))
    | some e =>
      let esg := (parseSign e).1
      let ed := (parseSign e).2
      if !ed.isEmpty && ed.all Char.isDigit then
        if esg = 1 then
          some (mkRat (sg * (digitsVal (ip ++ fp) : Int) * ((10 ^ digitsVal ed : Nat) : Int))
                 (10 ^ fp.length))
        else
          some (mkRat (sg * (digitsVal (ip ++ fp) : Int)) (10 ^ fp.length * 10 ^ digitsVal ed))
      else none
  else none

/-- Model of Python `float(s)` returning the exact rational value of a
finite decimal literal; `none` models a raised `ValueError`. -/
def parseFloat? (s : String) : Option Rat := parseFloatChars? s.data

/-! ### utils.py: categorize_time_control (nested inside preprocess_data) -/

/-- `categorize_time_control(x)` from utils.py.  The argument is one cell
of the `TimeControl` column: `none` models a missing (NaN) cell caught by
`pd.isna`, `some s` a string cell.  `float(str(x).split('+')[0])` is
modelled by `parseFloatChars?` on the part before the first `+`; a `none`
result models the exception swallowed by the bare `except`. -/
def categorize_time_control (x : Option String) : String :=
  match x with
  | none => "Unknown"
  | some s =>
    match parseFloatChars? ((pySplit '+' s.data).headD []) with
    | none => "Unknown"
    | some base_time =>
      if base_time < 180 then "Bullet (<3min)"
      else if base_time < 600 then "Blitz (3-10min)"
      else if base_time < 3600 then "Rapid (10-60min)"
      else "Classical (>60min)"

def timeControlLabels : List String :=
  ["Unknown", "Bullet (<3min)", "Blitz (3-10min)", "Rapid (10-60min)", "Classical (>60min)"]

/-! ### utils.py: get_opening_category -/

/-- Model of Python `str.upper()` (ASCII-faithful; the repository's ECO
codes are ASCII). -/
def pyUpper (s : String) : String := ⟨s.data.map Char.toUpper⟩

/-- The `categories` dict of `get_opening_category` together with its
`.get(first_letter, 'Other')` default lookup. -/
def opening_categories (c : Char) : String :=
  if c = 'A' then "Flank Openings"
  else if c = 'B' then "Semi-Open Games"
  else if c = 'C' then "Open Games"
  else if c = 'D' then "Closed Games"
  else if c = 'E' then "Indian Defenses"
  else "Other"

/-- `get_opening_category(eco_code)` from utils.py.  `none` models a
missing value caught by `pd.isna`.  `eco_code[0]` on the empty string
raises `IndexError` in Python, modelled by `Except.error`. -/
def get_opening_category (eco_code : Option String) : Except String String :=
  match eco_code with
  | none => Except.ok "Unknown"
  | some s =>
    match (pyUpper s).data with
    | [] => Except.error "IndexError"
    | first_letter :: _ => Except.ok (opening_categories first_letter)

/-! ### Theorems for C1 and C2 -/

/-- C1: time-control categorization is total with exactly the five labels;
the half-open interval boundaries hold exactly (base 179.999 to Bullet,
180 to Blitz, 599.999 to Blitz, 600 to Rapid, 3599.999 to Rapid, 3600 to
Classical); a missing value or a parse failure of the base part yields
"Unknown". -/
theorem categorize_time_control_spec :
    (∀ x : Option String, categorize_time_control x ∈ timeControlLabels)
    ∧ categorize_time_control (some "179.999+2") = "Bullet (<3min)"
    ∧ categorize_time_control (some "180+2") = "Blitz (3-10min)"
    ∧ categorize_time_control (some "599.999+2") = "Blitz (3-10min)"
    ∧ categorize_time_control (some "600+2") = "Rapid (10-60min)"
    ∧ categorize_time_control (some "3599.999+2") = "Rapid (10-60min)"
    ∧ categorize_time_control (some "3600+2") = "Classical (>60min)"
    ∧ categorize_time_control none = "Unknown"
    ∧ (∀ s : String, parseFloatChars? ((pySplit '+' s.data).headD []) = none →
        categorize_time_control (some s) = "Unknown") := by
  refine ⟨?_, by decide, by decide, by decide, by decide, by decide, by decide, rfl, ?_⟩
  · intro x
    cases x with
    | none => simp [categorize_time_control, timeControlLabels]
    | some s =>
      simp only [categorize_time_control]
      cases h : parseFloatChars? ((pySplit '+' s.data).headD []) with
      | none => simp [timeControlLabels]
      | some q => dsimp only; split_ifs <;> simp [timeControlLabels]
  · intro s h
    simp only [categorize_time_control]
    rw [h]

theorem categorize_time_control_spec_witness :
    parseFloatChars? ((pySplit '+' "-".data).headD []) = none
    ∧ categorize_time_control (some "-") = "Unknown" :=
  ⟨by decide, categorize_time_control_spec.2.2.2.2.2.2.2.2 "-" (by decide)⟩

/-- C2 counterexample: on the empty string the code raises IndexError
(`eco_code[0]` is out of range) instead of returning "Other" as the claim
states. -/
theorem get_opening_category_empty_raises :
    get_opening_category (some "") = Except.error "IndexError" := rfl

/-- C2 (amended): null input yields "Unknown"; every non-empty string is
classified without raising, by the uppercased first character through the
A..E table with default "Other"; only the empty string raises. -/
theorem get_opening_category_amended :
    get_opening_category none = Except.ok "Unknown"
    ∧ (∀ s : String, s ≠ "" → ∃ r, get_opening_category (some s) = Except.ok r)
    ∧ (∀ s : String, ∀ c : Char, ∀ cs : List Char, (pyUpper s).data = c :: cs →
        get_opening_category (some s) = Except.ok (opening_categories c))
    ∧ (∀ s : String, ∀ c : Char, ∀ cs : List Char, (pyUpper s).data = c :: cs →
        c ∉ (['A', 'B', 'C', 'D', 'E'] : List Char) →
        get_opening_category (some s) = Except.ok "Other")
    ∧ get_opening_category (some "a00") = Except.ok "Flank Openings"
    ∧ get_opening_category (some "B20") = Except.ok "Semi-Open Games"
    ∧ get_opening_category (some "c50") = Except.ok "Open Games"
    ∧ get_opening_category (some "D35") = Except.ok "Closed Games"
    ∧ get_opening_category (some "E60") = Except.ok "Indian Defenses"
    ∧ get_opening_category (some "Z99") = Except.ok "Other" := by
  refine ⟨rfl, ?_, ?_, ?_, rfl, rfl, rfl, rfl, rfl, rfl⟩
  · intro s hs
    cases h : (pyUpper s).data with
    | nil =>
      exfalso
      apply hs
      have hdata : s.data.map Char.toUpper = [] := h
      have hnil : s.data = [] := List.map_eq_nil_iff.mp hdata
      cases s
      simp_all
    | cons c cs =>
      refine ⟨opening_categories c, ?_⟩
      simp only [get_opening_category]
      rw [h]
  · intro s c cs h
    simp only [get_opening_category]
    rw [h]
  · intro s c cs h hc
    simp only [get_opening_category]
    rw [h]
    simp only [List.mem_cons, List.mem_singleton, not_or] at hc
    simp [opening_categories, hc.1, hc.2.1, hc.2.2.1, hc.2.2.2.1, hc.2.2.2.2]

theorem get_opening_category_amended_witness :
    ("Z99" : String) ≠ "" ∧ (∃ r, get_opening_category (some "Z99") = Except.ok r) :=
  ⟨by decide, get_opening_category_amended.2.1 "Z99" (by decide)⟩

/-! ### Cells and dataframes

A cell of the tabular data: `na` is a missing value (NaN/NaT), `str` a
string cell, `num` a numeric cell, `dt` a parsed timestamp
(year, month, day, hour, minute, second). -/

inductive Cell where
  | na : Cell
  | str : String → Cell
  | num : Rat → Cell
  | dt : Nat → Nat → Nat → Nat → Nat → Nat → Cell
deriving DecidableEq

/-- A dataframe: named columns over a shared row index. -/
abbrev DataFrame := List (String × List Cell)

/-- `df[name]`: the first column carrying the name, if any. -/
def getCol : DataFrame → String → Option (List Cell)
  | [], _ => none
  | p :: rest, name => if p.1 = name then some p.2 else getCol rest name

def hasCol : DataFrame → String → Bool
  | [], _ => false
  | p :: rest, name => if p.1 = name then true else hasCol rest name

def replaceCol : DataFrame → String → List Cell → DataFrame
  | [], _, _ => []
  | p :: rest, name, col =>
    if p.1 = name then (name, col) :: replaceCol rest name col
    else p :: replaceCol rest name col

/-- `df[name] = col`: replace the column if present, else append it. -/
def setCol (df : DataFrame) (name : String) (col : List Cell) : DataFrame :=
  if hasCol df name then replaceCol df name col else df ++ [(name, col)]

/-- All columns have the same number of rows `n`. -/
def wfDF (df : DataFrame) (n : Nat) : Prop := ∀ p ∈ df, p.2.length = n

/-! ### Datetime parsing (pd.to_datetime with fixed formats, errors='coerce') -/

def allDigits (l : List Char) : Bool := l.all Char.isDigit

def isLeap (y : Nat) : Bool := (y % 4 == 0 && y % 100 != 0) || y % 400 == 0

def daysInMonth (y m : Nat) : Nat :=
  if m = 2 then (if isLeap y then 29 else 28)
  else if m = 4 ∨ m = 6 ∨ m = 9 ∨ m = 11 then 30
  else 31

/-- Strict `%Y.%m.%d` parse. -/
def parseDateParts? (l : List Char) : Option (Nat × Nat × Nat) :=
  match pySplit '.' l with
  | [ys, ms, ds] =>
    if allDigits ys ∧ allDigits ms ∧ allDigits ds ∧ ys.length = 4
        ∧ (ms.length = 1 ∨ ms.length = 2) ∧ (ds.length = 1 ∨ ds.length = 2) then
      let y := digitsVal ys
      let m := digitsVal ms
      let d := digitsVal ds
      if 1 ≤ m ∧ m ≤ 12 ∧ 1 ≤ d ∧ d ≤ daysInMonth y m then some (y, m, d) else none
    else none
  | _ => none

/-- Strict `%H:%M:%S` parse. -/
def parseTimeParts? (l : List Char) : Option (Nat × Nat × Nat) :=
  match pySplit ':' l with
  | [hs, ms, ss] =>
    if allDigits hs ∧ allDigits ms ∧ allDigits ss ∧ (hs.length = 1 ∨ hs.length = 2)
        ∧ (ms.length = 1 ∨ ms.length = 2) ∧ (ss.length = 1 ∨ ss.length = 2) then
      let h := digitsVal hs
      let m := digitsVal ms
      let s := digitsVal ss
      if h ≤ 23 ∧ m ≤ 59 ∧ s ≤ 59 then some (h, m, s) else none
    else none
  | _ => none

/-- Object-column `+` as used in `df['UTCDate'] + ' ' + df['UTCTime']`:
string concatenation, any missing operand propagates NaN. -/
def cellStrAdd : Cell → Cell → Cell
  | .str a, .str b => .str ⟨a.data ++ b.data⟩
  | _, _ => .na

/-- One cell of `pd.to_datetime(col, format='%Y.%m.%d %H:%M:%S',
errors='coerce')`. -/
def toDatetimeCell : Cell → Cell
  | .str s =>
    (match pySplit ' ' s.data with
     | [dpart, tpart] =>
       match parseDateParts? dpart, parseTimeParts? tpart with
       | some (y, m, d), some (h, mi, sec) => .dt y m d h mi sec
       | _, _ => .na
     | _ => .na)
  | _ => .na

/-- One cell of `pd.to_datetime(col, format='%Y.%m.%d', errors='coerce')`. -/
def toDateCell : Cell → Cell
  | .str s =>
    (match parseDateParts? s.data with
     | some (y, m, d) => .dt y m d 0 0 0
     | none => .na)
  | _ => .na

/-- `.dt.hour`: hour of a timestamp, NaN for NaT. -/
def dtHourCell : Cell → Cell
  | .dt _ _ _ h _ _ => .num (mkRat h 1)
  | _ => .na

/-- Zeller's congruence; 0 = Saturday. -/
def zellerDow (y m d : Nat) : Nat :=
  let ym := if m ≤ 2 then y - 1 else y
  let mm := if m ≤ 2 then m + 12 else m
  let K := ym % 100
  let J := ym / 100
  (d + (13 * (mm + 1)) / 5 + K + K / 4 + J / 4 + 5 * J) % 7

/-- `.dt.day_name()`: weekday name, NaN for NaT. -/
def dayNameCell : Cell → Cell
  | .dt y m d _ _ _ =>
    .str ((["Saturday", "Sunday", "Monday", "Tuesday", "Wednesday", "Thursday",
      "Friday"] : List String).getD (zellerDow y m d) "")
  | _ => .na

/-! ### Time-control columns (preprocess_data lines 68-69) -/

/-- One cell of `col.str.split(sep).str[i]`: non-strings give NaN, an
out-of-range index gives NaN. -/
def strSplitGetCell (sep : Char) (i : Nat) : Cell → Cell
  | .str s =>
    (match (pySplit sep s.data)[i]? with
     | some part => .str ⟨part⟩
     | none => .na)
  | _ => .na

/-- One cell under `astype(float)`: NaN and numbers pass through, a string
must parse as a float; `none` models the ValueError.  (A timestamp cell
never occurs in the TimeControl column.) -/
def cellToFloat? : Cell → Option Cell
  | .na => some .na
  | .num q => some (.num q)
  | .str s => (parseFloatChars? s.data).map .num
  | .dt _ _ _ _ _ _ => none

def traverseCells : List Cell → Option (List Cell)
  | [] => some []
  | c :: r =>
    match cellToFloat? c, traverseCells r with
    | some c1, some r1 => some (c1 :: r1)
    | _, _ => none

/-- `Series.astype(float, errors='ignore')`: the conversion is attempted
for the whole column at once; if any cell fails, the original column is
returned unchanged (pandas' errors='ignore' is column-level, not
per-cell). -/
def astype_float_ignore (col : List Cell) : List Cell :=
  match traverseCells col with
  | some l => l
  | none => col

/-- `df['TimeControl'].str.split('+').str[i].astype(float, errors='ignore')`. -/
def timeControlSide (tc : List Cell) (i : Nat) : List Cell :=
  astype_float_ignore (tc.map (strSplitGetCell '+' i))

/-- Argument passed by `Series.apply` to `categorize_time_control`:
a missing cell is NaN (caught there by `pd.isna`), a string cell is the
string itself. -/
def cellAsOptString : Cell → Option String
  | .str s => some s
  | _ => none

/-! ### Elo, result and move-count columns -/

def cellAdd : Cell → Cell → Cell
  | .num a, .num b => .num (a + b)
  | .str a, .str b => .str ⟨a.data ++ b.data⟩
  | _, _ => .na

def cellSub : Cell → Cell → Cell
  | .num a, .num b => .num (a - b)
  | _, _ => .na

/-- `/ 2` on a numeric column, NaN propagating. -/
def cellDiv2 : Cell → Cell
  | .num a => .num (a / mkRat 2 1)
  | _ => .na

/-- `abs` on a numeric column, NaN propagating. -/
def cellAbs : Cell → Cell
  | .num a => .num (if a < 0 then -a else a)
  | _ => .na

/-- One cell of `(col == lit).astype(int)`: comparison with a scalar is
False for NaN, and `astype(int)` turns the booleans into 0/1. -/
def cellEqStrInt (lit : String) (c : Cell) : Cell :=
  .num (if c = .str lit then mkRat 1 1 else mkRat 0 1)

/-- Count of non-overlapping regex matches of `\d+` followed by the
literal tail (`.` or `...`), as `Series.str.count` does: a maximal digit
run immediately followed by the tail counts once and scanning resumes
after the tail. -/
def countRuns (needTail : List Char) : List Char → Nat
  | [] => 0
  | c :: rest =>
    if c.isDigit then
      let rest1 := rest.dropWhile Char.isDigit
      if needTail.isPrefixOf rest1 then 1 + countRuns needTail (rest1.drop needTail.length)
      else countRuns needTail rest1
    else countRuns needTail rest
  termination_by l => l.length
  decreasing_by
    · have h1 : (rest.dropWhile Char.isDigit).length ≤ rest.length :=
        (rest.dropWhile_sublist Char.isDigit).length_le
      have h2 : ((rest.dropWhile Char.isDigit).drop needTail.length).length ≤
          (rest.dropWhile Char.isDigit).length := (List.drop_sublist _ _).length_le
      simp only [List.length_cons]
      omega
    · have h1 : (rest.dropWhile Char.isDigit).length ≤ rest.length :=
        (rest.dropWhile_sublist Char.isDigit).length_le
      simp only [List.length_cons]
      omega
    · simp only [List.length_cons]
      omega

/-- One cell of `col.str.count(pattern)` for the move-number patterns:
NaN for a missing cell, else the match count as a number. -/
def anStrCount (needTail : List Char) : Cell → Cell
  | .str s => .num (mkRat (countRuns needTail s.data) 1)
  | _ => .na

/-! ### preprocess_data -/

/-- Date/time block of `preprocess_data` (guarded on the UTCDate and
UTCTime columns). -/
def dateBlock (df : DataFrame) : DataFrame :=
  match getCol df "UTCDate", getCol df "UTCTime" with
  | some d, some t =>
    let combined := List.zipWith (fun a b => cellStrAdd (cellStrAdd a (.str " ")) b) d t
    let dtCol := combined.map toDatetimeCell
    let dateCol := d.map toDateCell
    let df1 := setCol df "DateTime" dtCol
    let df2 := setCol df1 "Date" dateCol
    let df3 := setCol df2 "Hour" (dtCol.map dtHourCell)
    setCol df3 "DayOfWeek" (dateCol.map dayNameCell)
  | _, _ => df

/-- Time-control block of `preprocess_data` (guarded on the TimeControl
column). -/
def tcBlock (df : DataFrame) : DataFrame :=
  match getCol df "TimeControl" with
  | some tc =>
    let df1 := setCol df "TimeControl_Base" (timeControlSide tc 0)
    let df2 := setCol df1 "TimeControl_Increment" (timeControlSide tc 1)
    setCol df2 "TimeControl_Grouped"
      (tc.map (fun c => .str (categorize_time_control (cellAsOptString c))))
  | none => df

/-- Elo block of `preprocess_data` (guarded on the WhiteElo and BlackElo
columns). -/
def eloBlock (df : DataFrame) : DataFrame :=
  match getCol df "WhiteElo", getCol df "BlackElo" with
  | some w, some b =>
    let df1 := setCol df "AvgElo" ((List.zipWith cellAdd w b).map cellDiv2)
    setCol df1 "EloDiff" ((List.zipWith cellSub w b).map cellAbs)
  | _, _ => df

/-- Result block of `preprocess_data` (guarded on the Result column). -/
def resultBlock (df : DataFrame) : DataFrame :=
  match getCol df "Result" with
  | some r =>
    let df1 := setCol df "WhiteWins" (r.map (cellEqStrInt "1-0"))
    let df2 := setCol df1 "BlackWins" (r.map (cellEqStrInt "0-1"))
    setCol df2 "Draw" (r.map (cellEqStrInt "1/2-1/2"))
  | none => df

/-- Move-count block of `preprocess_data` (guarded on the AN column). -/
def moveBlock (df : DataFrame) : DataFrame :=
  match getCol df "AN" with
  | some an =>
    setCol df "MoveCount"
      (List.zipWith cellAdd (an.map (anStrCount ['.']))
        (an.map (anStrCount ['.', '.', '.'])))
  | none => df

/-- `preprocess_data(df)` from utils.py: the five derivation blocks in
source order, applied to the copy made by `df = df.copy()` (the copy
discipline itself is modelled by `preprocess_call`). -/
def preprocess_data (df : DataFrame) : DataFrame :=
  moveBlock (resultBlock (eloBlock (tcBlock (dateBlock df))))

/-- Call-level model of `preprocess_data` for the mutation claim: the
caller's dataframes live in a store (list of tables) and the argument is
a reference into it.  `df = df.copy()` allocates a fresh table, every
column assignment in the body targets that fresh table, and the function
returns its reference. -/
def preprocess_call (s : List DataFrame) (r : Nat) : List DataFrame × Nat :=
  (s ++ [preprocess_data (s.getD r [])], s.length)

/-! ### load_chess_data -/

/-- `chunk_size = 100000` in utils.py. -/
def chunkSize : Nat := 100000

/-- `pd.read_csv(filepath, chunksize=chunk_size)`: the file's rows in
sequential blocks of `chunkSize`, the last one possibly shorter. -/
def chunksOf {α : Type} : List α → List (List α)
  | [] => []
  | x :: xs => ((x :: xs).take chunkSize) :: chunksOf ((x :: xs).drop chunkSize)
  termination_by l => l.length
  decreasing_by simp [chunkSize]; omega

/-- The accumulation loop of `load_chess_data`: append each chunk, then
`break` once `len(chunks) * chunk_size >= sample_size` (`k` counts the
chunks already accumulated). -/
def accumLoop {α : Type} : List (List α) → Nat → Nat → List (List α)
  | [], _, _ => []
  | c :: rest, n, k =>
    c :: (if (k + 1) * chunkSize ≥ n then [] else accumLoop rest n (k + 1))

/-- Modelled from the spec (for the C4 refinement comparison): accumulate
blocks until the number of rows actually read (`acc`) reaches or exceeds
the requested sample size. -/
def spec_accum {α : Type} : List (List α) → Nat → Nat → List (List α)
  | [], _, _ => []
  | c :: rest, n, acc =>
    c :: (if acc + c.length ≥ n then [] else spec_accum rest n (acc + c.length))

/-- Step of the PRNG behind `DataFrame.sample`'s seeded row selection. -/
def lcg (s : Nat) : Nat := (6364136223846793005 * s + 1442695040888963407) % (2 ^ 64)

/-- Seed-driven without-replacement selection of `n` rows. -/
def sampleGo {α : Type} : Nat → Nat → List α → List α
  | _, 0, _ => []
  | _, _ + 1, [] => []
  | s, m + 1, x :: xs =>
    (x :: xs).getD (s % (x :: xs).length) x ::
      sampleGo (lcg s) m ((x :: xs).eraseIdx (s % (x :: xs).length))

/-- Model of `DataFrame.sample(n=n, random_state=rs)`: with a fixed
`random_state` the selection is a deterministic function of the data and
`n`; without one it would draw on ambient entropy.  The source always
passes `random_state=42`. -/
def df_sample {α : Type} (l : List α) (n : Nat) (randomState : Option Nat)
    (entropy : Nat) : List α :=
  sampleGo (randomState.getD entropy) n l

/-- Python truthiness of the `sample_size` argument (`if sample_size:`):
`None` and `0` are falsy. -/
def pyTruthy : Option Nat → Bool
  | none => false
  | some n => n != 0

/-- `load_chess_data(filepath, sample_size)` from utils.py, with the file
contents abstracted to its list of rows and ambient randomness made
explicit as `entropy` (unused because the source pins `random_state=42`).
In the sampling branch, `pd.concat(chunks, ignore_index=True)` raises
`ValueError` when `chunks` is empty — which happens exactly when the file
has no data rows, since `pd.read_csv(..., chunksize=...)` then yields no
chunks; that raise is modelled by `Except.error`. -/
def load_chess_data {α : Type} (rows : List α) (sample_size : Option Nat)
    (entropy : Nat) : Except String (List α) :=
  if pyTruthy sample_size then
    let n := sample_size.getD 0
    match accumLoop (chunksOf rows) n 0 with
    | [] => Except.error "ValueError: No objects to concatenate"
    | c :: cs =>
      let df := (c :: cs).flatten
      Except.ok (df_sample df (min n df.length) (some 42) entropy)
  else Except.ok rows

/-! ### Column-store lemmas -/

theorem getCol_replaceCol_self (df : DataFrame) (n : String) (c : List Cell)
    (h : hasCol df n = true) : getCol (replaceCol df n c) n = some c := by
  induction df with
  | nil => simp [hasCol] at h
  | cons p rest ih =>
    by_cases hp : p.1 = n
    · simp [replaceCol, getCol, hp]
    · simp only [hasCol, hp, if_false] at h
      simpa [replaceCol, getCol, hp] using ih h

theorem getCol_replaceCol_ne (df : DataFrame) (n m : String) (c : List Cell)
    (hmn : m ≠ n) : getCol (replaceCol df n c) m = getCol df m := by
  induction df with
  | nil => rfl
  | cons p rest ih =>
    by_cases hp : p.1 = n
    · simp only [replaceCol, hp, if_true, getCol, Ne.symm hmn, if_false]
      exact ih
    · by_cases hpm : p.1 = m
      · simp only [replaceCol, if_neg hp, getCol, if_pos hpm]
      · simpa [replaceCol, getCol, hp, hpm] using ih

theorem getCol_append_ne (df : DataFrame) (n m : String) (c : List Cell)
    (hmn : m ≠ n) : getCol (df ++ [(n, c)]) m = getCol df m := by
  induction df with
  | nil => simp [getCol, Ne.symm hmn]
  | cons p rest ih =>
    by_cases hpm : p.1 = m
    · simp [getCol, hpm]
    · simpa [getCol, hpm] using ih

theorem getCol_append_self (df : DataFrame) (n : String) (c : List Cell)
    (h : hasCol df n = false) : getCol (df ++ [(n, c)]) n = some c := by
  induction df with
  | nil => simp [getCol]
  | cons p rest ih =>
    by_cases hp : p.1 = n
    · simp [hasCol, hp] at h
    · simp only [hasCol, hp, if_false] at h
      simpa [getCol, hp] using ih h

theorem getCol_setCol_self (df : DataFrame) (n : String) (c : List Cell) :
    getCol (setCol df n c) n = some c := by
  unfold setCol
  by_cases h : hasCol df n = true
  · simpa [h] using getCol_replaceCol_self df n c h
  · simp only [Bool.not_eq_true] at h
    simpa [h] using getCol_append_self df n c h

theorem getCol_setCol_ne (df : DataFrame) (n m : String) (c : List Cell)
    (hmn : m ≠ n) : getCol (setCol df n c) m = getCol df m := by
  unfold setCol
  by_cases h : hasCol df n = true
  · simpa [h] using getCol_replaceCol_ne df n m c hmn
  · simpa [h] using getCol_append_ne df n m c hmn

theorem getCol_length (df : DataFrame) (n : Nat) (m : String) (c : List Cell)
    (hwf : wfDF df n) (h : getCol df m = some c) : c.length = n := by
  induction df with
  | nil => simp [getCol] at h
  | cons p rest ih =>
    by_cases hp : p.1 = m
    · simp only [getCol, hp, if_true, Option.some.injEq] at h
      exact h ▸ hwf p (by simp)
    · simp only [getCol, hp, if_false] at h
      exact ih (fun q hq => hwf q (List.mem_cons_of_mem p hq)) h

theorem wf_replaceCol (df : DataFrame) (n : Nat) (m : String) (col : List Cell)
    (hwf : wfDF df n) (hc : col.length = n) : wfDF (replaceCol df m col) n := by
  induction df with
  | nil => intro q hq; simp [replaceCol] at hq
  | cons p rest ih =>
    intro q hq
    have hrest : wfDF rest n := fun r hr => hwf r (List.mem_cons_of_mem p hr)
    by_cases hp : p.1 = m
    · simp only [replaceCol, hp, if_true, List.mem_cons] at hq
      rcases hq with h | h
      · simpa [h] using hc
      · exact ih hrest q h
    · simp only [replaceCol, hp, if_false, List.mem_cons] at hq
      rcases hq with h | h
      · exact h ▸ hwf p (by simp)
      · exact ih hrest q h

theorem wf_setCol (df : DataFrame) (n : Nat) (m : String) (col : List Cell)
    (hwf : wfDF df n) (hc : col.length = n) : wfDF (setCol df m col) n := by
  unfold setCol
  by_cases h : hasCol df m = true
  · simpa [h] using wf_replaceCol df n m col hwf hc
  · simp only [h, if_false]
    intro q hq
    rcases List.mem_append.mp hq with hq1 | hq1
    · exact hwf q hq1
    · simp only [List.mem_singleton] at hq1
      simpa [hq1] using hc

/-! ### Block lemmas: untouched columns are preserved -/

theorem getCol_dateBlock (df : DataFrame) (m : String) (h1 : m ≠ "DateTime")
    (h2 : m ≠ "Date") (h3 : m ≠ "Hour") (h4 : m ≠ "DayOfWeek") :
    getCol (dateBlock df) m = getCol df m := by
  unfold dateBlock
  cases hd : getCol df "UTCDate" with
  | none => rfl
  | some d =>
    cases ht : getCol df "UTCTime" with
    | none => rfl
    | some t =>
      rw [getCol_setCol_ne _ _ _ _ h4, getCol_setCol_ne _ _ _ _ h3,
        getCol_setCol_ne _ _ _ _ h2, getCol_setCol_ne _ _ _ _ h1]

theorem getCol_tcBlock (df : DataFrame) (m : String) (h1 : m ≠ "TimeControl_Base")
    (h2 : m ≠ "TimeControl_Increment") (h3 : m ≠ "TimeControl_Grouped") :
    getCol (tcBlock df) m = getCol df m := by
  unfold tcBlock
  cases htc : getCol df "TimeControl" with
  | none => rfl
  | some tc =>
    rw [getCol_setCol_ne _ _ _ _ h3, getCol_setCol_ne _ _ _ _ h2,
      getCol_setCol_ne _ _ _ _ h1]

theorem getCol_eloBlock (df : DataFrame) (m : String) (h1 : m ≠ "AvgElo")
    (h2 : m ≠ "EloDiff") : getCol (eloBlock df) m = getCol df m := by
  unfold eloBlock
  cases hw : getCol df "WhiteElo" with
  | none => rfl
  | some w =>
    cases hb : getCol df "BlackElo" with
    | none => rfl
    | some b =>
      rw [getCol_setCol_ne _ _ _ _ h2, getCol_setCol_ne _ _ _ _ h1]

theorem getCol_resultBlock (df : DataFrame) (m : String) (h1 : m ≠ "WhiteWins")
    (h2 : m ≠ "BlackWins") (h3 : m ≠ "Draw") :
    getCol (resultBlock df) m = getCol df m := by
  unfold resultBlock
  cases hr : getCol df "Result" with
  | none => rfl
  | some r =>
    rw [getCol_setCol_ne _ _ _ _ h3, getCol_setCol_ne _ _ _ _ h2,
      getCol_setCol_ne _ _ _ _ h1]

theorem getCol_moveBlock (df : DataFrame) (m : String) (h1 : m ≠ "MoveCount") :
    getCol (moveBlock df) m = getCol df m := by
  unfold moveBlock
  cases ha : getCol df "AN" with
  | none => rfl
  | some an => rw [getCol_setCol_ne _ _ _ _ h1]

/-! ### Block lemmas: the derived columns -/

theorem tcBlock_cols (df : DataFrame) (tc : List Cell)
    (htc : getCol df "TimeControl" = some tc) :
    getCol (tcBlock df) "TimeControl_Base" = some (timeControlSide tc 0)
    ∧ getCol (tcBlock df) "TimeControl_Increment" = some (timeControlSide tc 1)
    ∧ getCol (tcBlock df) "TimeControl_Grouped"
        = some (tc.map (fun c => .str (categorize_time_control (cellAsOptString c)))) := by
  unfold tcBlock
  rw [htc]
  refine ⟨?_, ?_, ?_⟩
  · rw [getCol_setCol_ne _ _ _ _ (by decide), getCol_setCol_ne _ _ _ _ (by decide),
      getCol_setCol_self]
  · rw [getCol_setCol_ne _ _ _ _ (by decide), getCol_setCol_self]
  · rw [getCol_setCol_self]

theorem eloBlock_cols (df : DataFrame) (w b : List Cell)
    (hw : getCol df "WhiteElo" = some w) (hb : getCol df "BlackElo" = some b) :
    getCol (eloBlock df) "AvgElo" = some ((List.zipWith cellAdd w b).map cellDiv2)
    ∧ getCol (eloBlock df) "EloDiff" = some ((List.zipWith cellSub w b).map cellAbs) := by
  unfold eloBlock
  rw [hw, hb]
  refine ⟨?_, ?_⟩
  · rw [getCol_setCol_ne _ _ _ _ (by decide), getCol_setCol_self]
  · rw [getCol_setCol_self]

theorem resultBlock_cols (df : DataFrame) (r : List Cell)
    (hr : getCol df "Result" = some r) :
    getCol (resultBlock df) "WhiteWins" = some (r.map (cellEqStrInt "1-0"))
    ∧ getCol (resultBlock df) "BlackWins" = some (r.map (cellEqStrInt "0-1"))
    ∧ getCol (resultBlock df) "Draw" = some (r.map (cellEqStrInt "1/2-1/2")) := by
  unfold resultBlock
  rw [hr]
  refine ⟨?_, ?_, ?_⟩
  · rw [getCol_setCol_ne _ _ _ _ (by decide), getCol_setCol_ne _ _ _ _ (by decide),
      getCol_setCol_self]
  · rw [getCol_setCol_ne _ _ _ _ (by decide), getCol_setCol_self]
  · rw [getCol_setCol_self]

/-! ### Block lemmas: row counts are preserved -/

theorem wf_dateBlock (df : DataFrame) (n : Nat) (hwf : wfDF df n) :
    wfDF (dateBlock df) n := by
  unfold dateBlock
  cases hd : getCol df "UTCDate" with
  | none => exact hwf
  | some d =>
    cases ht : getCol df "UTCTime" with
    | none => exact hwf
    | some t =>
      have hdl : d.length = n := getCol_length df n _ d hwf hd
      have htl : t.length = n := getCol_length df n _ t hwf ht
      have hcomb : (List.zipWith (fun a b => cellStrAdd (cellStrAdd a (.str " ")) b) d t).length
          = n := by rw [List.length_zipWith, hdl, htl, Nat.min_self]
      refine wf_setCol _ n _ _ (wf_setCol _ n _ _ (wf_setCol _ n _ _ (wf_setCol _ n _ _ hwf ?_)
        ?_) ?_) ?_
      · simpa using hcomb
      · simpa using hdl
      · simpa using hcomb
      · simpa using hdl

theorem wf_tcBlock (df : DataFrame) (n : Nat) (hwf : wfDF df n) :
    wfDF (tcBlock df) n := by
  unfold tcBlock
  cases htc : getCol df "TimeControl" with
  | none => exact hwf
  | some tc =>
    have htl : tc.length = n := getCol_length df n _ tc hwf htc
    have hside : ∀ i, (timeControlSide tc i).length = n := by
      intro i
      unfold timeControlSide astype_float_ignore
      cases htr : traverseCells (tc.map (strSplitGetCell '+' i)) with
      | none => simpa using htl
      | some l =>
        have : ∀ (xs : List Cell) (ys : List Cell), traverseCells xs = some ys →
            ys.length = xs.length := by
          intro xs
          induction xs with
          | nil => intro ys hy; simp [traverseCells] at hy; simp [← hy]
          | cons x xr ih =>
            intro ys hy
            simp only [traverseCells] at hy
            cases hx : cellToFloat? x with
            | none => rw [hx] at hy; simp at hy
            | some x1 =>
              rw [hx] at hy
              cases hr : traverseCells xr with
              | none => rw [hr] at hy; simp at hy
              | some r1 =>
                rw [hr] at hy
                simp only [Option.some.injEq] at hy
                simp [← hy, ih r1 hr]
        rw [this _ l htr]
        simpa using htl
    exact wf_setCol _ n _ _ (wf_setCol _ n _ _ (wf_setCol _ n _ _ hwf (hside 0)) (hside 1))
      (by simpa using htl)

theorem wf_eloBlock (df : DataFrame) (n : Nat) (hwf : wfDF df n) :
    wfDF (eloBlock df) n := by
  unfold eloBlock
  cases hw : getCol df "WhiteElo" with
  | none => exact hwf
  | some w =>
    cases hb : getCol df "BlackElo" with
    | none => exact hwf
    | some b =>
      have hwl : w.length = n := getCol_length df n _ w hwf hw
      have hbl : b.length = n := getCol_length df n _ b hwf hb
      refine wf_setCol _ n _ _ (wf_setCol _ n _ _ hwf ?_) ?_ <;>
        simp [List.length_zipWith, hwl, hbl]

theorem wf_resultBlock (df : DataFrame) (n : Nat) (hwf : wfDF df n) :
    wfDF (resultBlock df) n := by
  unfold resultBlock
  cases hr : getCol df "Result" with
  | none => exact hwf
  | some r =>
    have hrl : r.length = n := getCol_length df n _ r hwf hr
    refine wf_setCol _ n _ _ (wf_setCol _ n _ _ (wf_setCol _ n _ _ hwf ?_) ?_) ?_ <;>
      simpa using hrl

theorem wf_moveBlock (df : DataFrame) (n : Nat) (hwf : wfDF df n) :
    wfDF (moveBlock df) n := by
  unfold moveBlock
  cases ha : getCol df "AN" with
  | none => exact hwf
  | some an =>
    have hal : an.length = n := getCol_length df n _ an hwf ha
    exact wf_setCol _ n _ _ hwf (by simp [List.length_zipWith, hal])

/-! ### traverseCells behaviour -/

theorem traverseCells_all (l : List Cell) (h : ∀ c ∈ l, cellToFloat? c ≠ none) :
    traverseCells l = some (l.map (fun c => (cellToFloat? c).getD .na)) := by
  induction l with
  | nil => rfl
  | cons c r ih =>
    cases hx : cellToFloat? c with
    | none => exact absurd hx (h c (by simp))
    | some c1 =>
      have hr := ih (fun q hq => h q (List.mem_cons_of_mem c hq))
      simp [traverseCells, hx, hr]

theorem traverseCells_none (l : List Cell) (h : ∃ c ∈ l, cellToFloat? c = none) :
    traverseCells l = none := by
  induction l with
  | nil => simp at h
  | cons c r ih =>
    rcases h with ⟨q, hq, hqn⟩
    rcases List.mem_cons.mp hq with rfl | hq1
    · simp [traverseCells, hqn]
    · have hr := ih ⟨q, hq1, hqn⟩
      simp only [traverseCells, hr]
      cases cellToFloat? c <;> rfl

/-! ### Helper for element access through zipWith -/

theorem zipWith_getElem?_of {α β γ : Type} (f : α → β → γ) (l1 : List α) (l2 : List β)
    (i : Nat) (a : α) (b : β) (h1 : l1[i]? = some a) (h2 : l2[i]? = some b) :
    (List.zipWith f l1 l2)[i]? = some (f a b) :=
  List.getElem?_zipWith_eq_some.mpr ⟨a, b, h1, h2, rfl⟩

/-! ### Theorems for C3 -/

/-- C3 counterexample: with rows ["300+3", "-"], the base side of the
second row fails to parse, and pandas' column-level `errors='ignore'`
leaves the whole `TimeControl_Base` column as unconverted strings — the
failing row's cell is the string "-", not null, and the first row's cell
stays the string "300" instead of the number 300. -/
theorem timecontrol_base_not_per_cell :
    getCol (preprocess_data [("TimeControl", [Cell.str "300+3", Cell.str "-"])])
        "TimeControl_Base" = some [Cell.str "300", Cell.str "-"]
    ∧ getCol (preprocess_data [("TimeControl", [Cell.str "300+3", Cell.str "-"])])
        "TimeControl_Base" ≠ some [Cell.num (mkRat 300 1), Cell.na] := by
  exact ⟨by decide, by decide⟩

/-- C3 (amended): the two derived side columns are computed independently
of each other from TimeControl, and a missing side still yields null per
cell, but float conversion is column-at-once: if every extracted cell of
a side converts, the column holds the converted cells; if any cell of a
side fails to parse, that entire side's column is left as the unconverted
extracted strings. -/
theorem timecontrol_side_amended (df : DataFrame) (tc : List Cell)
    (htc : getCol df "TimeControl" = some tc) :
    ((∀ c ∈ tc.map (strSplitGetCell '+' 0), cellToFloat? c ≠ none) →
      getCol (preprocess_data df) "TimeControl_Base"
        = some ((tc.map (strSplitGetCell '+' 0)).map (fun c => (cellToFloat? c).getD .na)))
    ∧ ((∃ c ∈ tc.map (strSplitGetCell '+' 0), cellToFloat? c = none) →
      getCol (preprocess_data df) "TimeControl_Base"
        = some (tc.map (strSplitGetCell '+' 0)))
    ∧ ((∀ c ∈ tc.map (strSplitGetCell '+' 1), cellToFloat? c ≠ none) →
      getCol (preprocess_data df) "TimeControl_Increment"
        = some ((tc.map (strSplitGetCell '+' 1)).map (fun c => (cellToFloat? c).getD .na)))
    ∧ ((∃ c ∈ tc.map (strSplitGetCell '+' 1), cellToFloat? c = none) →
      getCol (preprocess_data df) "TimeControl_Increment"
        = some (tc.map (strSplitGetCell '+' 1))) := by
  have htc1 : getCol (dateBlock df) "TimeControl" = some tc := by
    rw [getCol_dateBlock _ _ (by decide) (by decide) (by decide) (by decide)]
    exact htc
  obtain ⟨hbase, hinc, _⟩ := tcBlock_cols _ tc htc1
  have hbase1 : getCol (preprocess_data df) "TimeControl_Base"
      = some (timeControlSide tc 0) := by
    unfold preprocess_data
    rw [getCol_moveBlock _ _ (by decide),
      getCol_resultBlock _ _ (by decide) (by decide) (by decide),
      getCol_eloBlock _ _ (by decide) (by decide)]
    exact hbase
  have hinc1 : getCol (preprocess_data df) "TimeControl_Increment"
      = some (timeControlSide tc 1) := by
    unfold preprocess_data
    rw [getCol_moveBlock _ _ (by decide),
      getCol_resultBlock _ _ (by decide) (by decide) (by decide),
      getCol_eloBlock _ _ (by decide) (by decide)]
    exact hinc
  refine ⟨?_, ?_, ?_, ?_⟩
  · intro h
    rw [hbase1]
    unfold timeControlSide astype_float_ignore
    rw [traverseCells_all _ h]
  · intro h
    rw [hbase1]
    unfold timeControlSide astype_float_ignore
    rw [traverseCells_none _ h]
  · intro h
    rw [hinc1]
    unfold timeControlSide astype_float_ignore
    rw [traverseCells_all _ h]
  · intro h
    rw [hinc1]
    unfold timeControlSide astype_float_ignore
    rw [traverseCells_none _ h]

theorem timecontrol_side_amended_witness :
    (∃ c ∈ ([Cell.str "300+3", Cell.str "-"].map (strSplitGetCell '+' 0)),
        cellToFloat? c = none)
    ∧ getCol (preprocess_data [("TimeControl", [Cell.str "300+3", Cell.str "-"])])
        "TimeControl_Base" = some ([Cell.str "300+3", Cell.str "-"].map (strSplitGetCell '+' 0))
    ∧ (∀ c ∈ ([Cell.str "300+3", Cell.str "-"].map (strSplitGetCell '+' 1)),
        cellToFloat? c ≠ none)
    ∧ getCol (preprocess_data [("TimeControl", [Cell.str "300+3", Cell.str "-"])])
        "TimeControl_Increment"
        = some (([Cell.str "300+3", Cell.str "-"].map (strSplitGetCell '+' 1)).map
            (fun c => (cellToFloat? c).getD .na)) :=
  ⟨by decide, (timecontrol_side_amended _ _ (by decide)).2.1 (by decide), by decide,
    (timecontrol_side_amended _ _ (by decide)).2.2.1 (by decide)⟩

/-! ### Theorem for C6 -/

/-- C6: preprocessing preserves the row count of every column and of the
table: whenever all of `df`'s columns have `n` rows (including `n = 0`),
all columns of the preprocessed table still have `n` rows — no row is
discarded or added. -/
theorem preprocess_data_row_count (df : DataFrame) (n : Nat) (hwf : wfDF df n) :
    wfDF (preprocess_data df) n :=
  wf_moveBlock _ n (wf_resultBlock _ n (wf_eloBlock _ n (wf_tcBlock _ n
    (wf_dateBlock _ n hwf))))

theorem preprocess_data_row_count_witness :
    wfDF [("UTCDate", []), ("UTCTime", []), ("TimeControl", []), ("WhiteElo", []),
      ("BlackElo", []), ("Result", []), ("AN", [])] 0
    ∧ wfDF (preprocess_data [("UTCDate", []), ("UTCTime", []), ("TimeControl", []),
      ("WhiteElo", []), ("BlackElo", []), ("Result", []), ("AN", [])]) 0 :=
  ⟨by unfold wfDF; decide, preprocess_data_row_count _ 0 (by unfold wfDF; decide)⟩

/-! ### Theorem for C7 -/

/-- C7: the preprocessor does not mutate its input: in the store model,
every table the caller holds (any index `i` in the store) is unchanged by
the call, and the returned reference holds the augmented copy, distinct
from every pre-existing index. -/
theorem preprocess_call_frames (s : List DataFrame) (r i : Nat) (hi : i < s.length) :
    (preprocess_call s r).1.getD i [] = s.getD i []
    ∧ (preprocess_call s r).1.getD (preprocess_call s r).2 []
        = preprocess_data (s.getD r [])
    ∧ (preprocess_call s r).2 ≠ i := by
  unfold preprocess_call
  refine ⟨List.getD_append _ _ _ _ hi, ?_, by omega⟩
  simp [List.getD_append_right s _ _ s.length (Nat.le_refl _)]

theorem preprocess_call_frames_witness :
    0 < ([[("A", [])]] : List DataFrame).length
    ∧ ((preprocess_call [[("A", [])]] 0).1.getD 0 []
          = ([[("A", [])]] : List DataFrame).getD 0 []
        ∧ (preprocess_call [[("A", [])]] 0).1.getD (preprocess_call [[("A", [])]] 0).2 []
          = preprocess_data (([[("A", [])]] : List DataFrame).getD 0 [])
        ∧ (preprocess_call [[("A", [])]] 0).2 ≠ 0) :=
  ⟨by decide, preprocess_call_frames [[("A", [])]] 0 0 (by decide)⟩

/-! ### Theorem for C8 -/

/-- C8: per row, when both Elo cells are numbers the derived AvgElo cell
is their mean and the EloDiff cell their absolute difference; when either
is missing, both derived cells are null for that row. -/
theorem preprocess_elo_cells (df : DataFrame) (w b : List Cell)
    (hw : getCol df "WhiteElo" = some w) (hb : getCol df "BlackElo" = some b)
    (i : Nat) (cw cb : Cell) (hwc : w[i]? = some cw) (hbc : b[i]? = some cb) :
    ∃ A D, getCol (preprocess_data df) "AvgElo" = some A
      ∧ getCol (preprocess_data df) "EloDiff" = some D
      ∧ (∀ x y : Rat, cw = .num x → cb = .num y →
          A[i]? = some (.num ((x + y) / 2)) ∧ D[i]? = some (.num |x - y|))
      ∧ ((cw = .na ∨ cb = .na) → A[i]? = some .na ∧ D[i]? = some .na) := by
  have hw1 : getCol (tcBlock (dateBlock df)) "WhiteElo" = some w := by
    rw [getCol_tcBlock _ _ (by decide) (by decide) (by decide),
      getCol_dateBlock _ _ (by decide) (by decide) (by decide) (by decide)]
    exact hw
  have hb1 : getCol (tcBlock (dateBlock df)) "BlackElo" = some b := by
    rw [getCol_tcBlock _ _ (by decide) (by decide) (by decide),
      getCol_dateBlock _ _ (by decide) (by decide) (by decide) (by decide)]
    exact hb
  obtain ⟨hA, hD⟩ := eloBlock_cols _ w b hw1 hb1
  have hA1 : getCol (preprocess_data df) "AvgElo"
      = some ((List.zipWith cellAdd w b).map cellDiv2) := by
    unfold preprocess_data
    rw [getCol_moveBlock _ _ (by decide),
      getCol_resultBlock _ _ (by decide) (by decide) (by decide)]
    exact hA
  have hD1 : getCol (preprocess_data df) "EloDiff"
      = some ((List.zipWith cellSub w b).map cellAbs) := by
    unfold preprocess_data
    rw [getCol_moveBlock _ _ (by decide),
      getCol_resultBlock _ _ (by decide) (by decide) (by decide)]
    exact hD
  refine ⟨_, _, hA1, hD1, ?_, ?_⟩
  · rintro x y rfl rfl
    have hadd : (List.zipWith cellAdd w b)[i]? = some (cellAdd (.num x) (.num y)) :=
      zipWith_getElem?_of _ _ _ _ _ _ hwc hbc
    have hsub : (List.zipWith cellSub w b)[i]? = some (cellSub (.num x) (.num y)) :=
      zipWith_getElem?_of _ _ _ _ _ _ hwc hbc
    constructor
    · rw [List.getElem?_map, hadd]
      have h2 : mkRat 2 1 = (2 : Rat) := by norm_num [mkRat]
      simp [cellAdd, cellDiv2, h2]
    · rw [List.getElem?_map, hsub]
      rcases lt_or_le (x - y) 0 with hneg | hpos
      · simp [cellSub, cellAbs, hneg, abs_of_neg hneg]
      · simp [cellSub, cellAbs, not_lt.mpr hpos, abs_of_nonneg hpos]
  · intro h
    have hna : cellAdd cw cb = .na ∧ cellSub cw cb = .na := by
      rcases h with rfl | rfl
      · cases cb <;> exact ⟨rfl, rfl⟩
      · cases cw <;> exact ⟨rfl, rfl⟩
    have hadd : (List.zipWith cellAdd w b)[i]? = some (cellAdd cw cb) :=
      zipWith_getElem?_of _ _ _ _ _ _ hwc hbc
    have hsub : (List.zipWith cellSub w b)[i]? = some (cellSub cw cb) :=
      zipWith_getElem?_of _ _ _ _ _ _ hwc hbc
    constructor
    · rw [List.getElem?_map, hadd, hna.1]
      rfl
    · rw [List.getElem?_map, hsub, hna.2]
      rfl

theorem preprocess_elo_cells_witness :
    getCol [("WhiteElo", [Cell.num 1500, Cell.na]),
        ("BlackElo", [Cell.num 1520, Cell.num 1600])] "WhiteElo"
      = some [Cell.num 1500, Cell.na]
    ∧ (∃ A D,
        getCol (preprocess_data [("WhiteElo", [Cell.num 1500, Cell.na]),
            ("BlackElo", [Cell.num 1520, Cell.num 1600])]) "AvgElo" = some A
        ∧ getCol (preprocess_data [("WhiteElo", [Cell.num 1500, Cell.na]),
            ("BlackElo", [Cell.num 1520, Cell.num 1600])]) "EloDiff" = some D
        ∧ (∀ x y : Rat, Cell.num 1500 = .num x → Cell.num 1520 = .num y →
            A[0]? = some (.num ((x + y) / 2)) ∧ D[0]? = some (.num |x - y|))
        ∧ ((Cell.num 1500 = Cell.na ∨ Cell.num 1520 = Cell.na) →
            A[0]? = some .na ∧ D[0]? = some .na)) :=
  ⟨by decide,
    preprocess_elo_cells
      [("WhiteElo", [Cell.num 1500, Cell.na]), ("BlackElo", [Cell.num 1520, Cell.num 1600])]
      [Cell.num 1500, Cell.na] [Cell.num 1520, Cell.num 1600] (by decide) (by decide) 0
      (Cell.num 1500) (Cell.num 1520) (by decide) (by decide)⟩

/-! ### Theorem for C9 -/

/-- C9: per row, the three result flags are derived from that row's
Result cell alone: "1-0" sets exactly WhiteWins, "0-1" exactly BlackWins,
"1/2-1/2" exactly Draw, and any other value sets none (flags are the 0/1
integers pandas produces for the boolean comparisons). -/
theorem preprocess_result_flags (df : DataFrame) (r : List Cell)
    (hr : getCol df "Result" = some r) (i : Nat) (c : Cell) (hc : r[i]? = some c) :
    ∃ W B D, getCol (preprocess_data df) "WhiteWins" = some W
      ∧ getCol (preprocess_data df) "BlackWins" = some B
      ∧ getCol (preprocess_data df) "Draw" = some D
      ∧ (c = .str "1-0" →
          W[i]? = some (.num 1) ∧ B[i]? = some (.num 0) ∧ D[i]? = some (.num 0))
      ∧ (c = .str "0-1" →
          W[i]? = some (.num 0) ∧ B[i]? = some (.num 1) ∧ D[i]? = some (.num 0))
      ∧ (c = .str "1/2-1/2" →
          W[i]? = some (.num 0) ∧ B[i]? = some (.num 0) ∧ D[i]? = some (.num 1))
      ∧ (c ≠ .str "1-0" → c ≠ .str "0-1" → c ≠ .str "1/2-1/2" →
          W[i]? = some (.num 0) ∧ B[i]? = some (.num 0) ∧ D[i]? = some (.num 0)) := by
  have hr1 : getCol (eloBlock (tcBlock (dateBlock df))) "Result" = some r := by
    rw [getCol_eloBlock _ _ (by decide) (by decide),
      getCol_tcBlock _ _ (by decide) (by decide) (by decide),
      getCol_dateBlock _ _ (by decide) (by decide) (by decide) (by decide)]
    exact hr
  obtain ⟨hW, hB, hD⟩ := resultBlock_cols _ r hr1
  have hW1 : getCol (preprocess_data df) "WhiteWins" = some (r.map (cellEqStrInt "1-0")) := by
    unfold preprocess_data
    rw [getCol_moveBlock _ _ (by decide)]
    exact hW
  have hB1 : getCol (preprocess_data df) "BlackWins" = some (r.map (cellEqStrInt "0-1")) := by
    unfold preprocess_data
    rw [getCol_moveBlock _ _ (by decide)]
    exact hB
  have hD1 : getCol (preprocess_data df) "Draw" = some (r.map (cellEqStrInt "1/2-1/2")) := by
    unfold preprocess_data
    rw [getCol_moveBlock _ _ (by decide)]
    exact hD
  have h1 : mkRat 1 1 = (1 : Rat) := by norm_num [mkRat]
  have h0 : mkRat 0 1 = (0 : Rat) := by norm_num [mkRat]
  refine ⟨_, _, _, hW1, hB1, hD1, ?_, ?_, ?_, ?_⟩
  · rintro rfl
    refine ⟨?_, ?_, ?_⟩ <;> rw [List.getElem?_map, hc] <;> simp [cellEqStrInt, h1, h0]
  · rintro rfl
    refine ⟨?_, ?_, ?_⟩ <;> rw [List.getElem?_map, hc] <;> simp [cellEqStrInt, h1, h0]
  · rintro rfl
    refine ⟨?_, ?_, ?_⟩ <;> rw [List.getElem?_map, hc] <;> simp [cellEqStrInt, h1, h0]
  · intro hx hy hz
    refine ⟨?_, ?_, ?_⟩ <;> rw [List.getElem?_map, hc] <;>
      simp [cellEqStrInt, hx, hy, hz, h0]

theorem preprocess_result_flags_witness :
    getCol [("Result", [Cell.str "1-0"])] "Result" = some [Cell.str "1-0"]
    ∧ (∃ W B D, getCol (preprocess_data [("Result", [Cell.str "1-0"])]) "WhiteWins" = some W
        ∧ getCol (preprocess_data [("Result", [Cell.str "1-0"])]) "BlackWins" = some B
        ∧ getCol (preprocess_data [("Result", [Cell.str "1-0"])]) "Draw" = some D
        ∧ (Cell.str "1-0" = .str "1-0" →
            W[0]? = some (.num 1) ∧ B[0]? = some (.num 0) ∧ D[0]? = some (.num 0))
        ∧ (Cell.str "1-0" = .str "0-1" →
            W[0]? = some (.num 0) ∧ B[0]? = some (.num 1) ∧ D[0]? = some (.num 0))
        ∧ (Cell.str "1-0" = .str "1/2-1/2" →
            W[0]? = some (.num 0) ∧ B[0]? = some (.num 0) ∧ D[0]? = some (.num 1))
        ∧ (Cell.str "1-0" ≠ .str "1-0" → Cell.str "1-0" ≠ .str "0-1" →
            Cell.str "1-0" ≠ .str "1/2-1/2" →
            W[0]? = some (.num 0) ∧ B[0]? = some (.num 0) ∧ D[0]? = some (.num 0))) :=
  ⟨by decide,
    preprocess_result_flags [("Result", [Cell.str "1-0"])] [Cell.str "1-0"] (by decide) 0
      (Cell.str "1-0") (by decide)⟩

/-! ### Loader lemmas -/

/-- Every chunk produced by `chunksOf` has exactly `chunkSize` rows except
possibly the last. -/
def fullButLast {α : Type} : List (List α) → Prop
  | [] => True
  | [_] => True
  | c :: c2 :: r => c.length = chunkSize ∧ fullButLast (c2 :: r)

theorem chunksOf_fullButLast {α : Type} (l : List α) : fullButLast (chunksOf l) := by
  induction l using chunksOf.induct with
  | case1 => simp [chunksOf, fullButLast]
  | case2 x xs ih =>
    rw [chunksOf]
    cases hd : (x :: xs).drop chunkSize with
    | nil =>
      simp [chunksOf, fullButLast]
    | cons y ys =>
      have hlen : chunkSize < (x :: xs).length := by
        by_contra hle
        push_neg at hle
        have hnil : (x :: xs).drop chunkSize = [] := List.drop_eq_nil_of_le hle
        rw [hnil] at hd
        exact absurd hd (by simp)
      have htake : ((x :: xs).take chunkSize).length = chunkSize := by
        rw [List.length_take]
        omega
      rw [hd] at ih
      cases he : chunksOf (y :: ys) with
      | nil => simp [fullButLast]
      | cons t2 r2 =>
        rw [he] at ih
        exact ⟨htake, ih⟩

theorem accumLoop_eq_spec {α : Type} (ls : List (List α)) (hfl : fullButLast ls)
    (n : Nat) : ∀ k acc : Nat, acc = k * chunkSize →
    accumLoop ls n k = spec_accum ls n acc := by
  induction ls with
  | nil => intro k acc _; rfl
  | cons c rest ih =>
    intro k acc hacc
    cases rest with
    | nil => simp [accumLoop, spec_accum]
    | cons c2 r2 =>
      obtain ⟨hc, hrest⟩ := hfl
      simp only [accumLoop, spec_accum]
      have hx : (k + 1) * chunkSize = k * chunkSize + chunkSize := by ring
      by_cases hge : (k + 1) * chunkSize ≥ n
      · have hge2 : acc + c.length ≥ n := by omega
        rw [if_pos hge, if_pos hge2]
      · have hge2 : ¬ acc + c.length ≥ n := by omega
        rw [if_neg hge, if_neg hge2]
        exact congrArg (c :: ·) (ih hrest (k + 1) (acc + c.length) (by omega))

theorem sampleGo_length {α : Type} (m : Nat) : ∀ (s : Nat) (l : List α),
    m ≤ l.length → (sampleGo s m l).length = m := by
  induction m with
  | zero => intro s l _; rfl
  | succ m ih =>
    intro s l h
    cases l with
    | nil => simp at h
    | cons x xs =>
      simp only [sampleGo, List.length_cons]
      rw [ih]
      rw [List.length_eraseIdx]
      split
      · simp only [List.length_cons] at h ⊢
        omega
      · simp only [List.length_cons] at h ⊢
        omega

theorem sampleGo_mem {α : Type} (m : Nat) : ∀ (s : Nat) (l : List α) (x : α),
    x ∈ sampleGo s m l → x ∈ l := by
  induction m with
  | zero => intro s l x hx; simp [sampleGo] at hx
  | succ m ih =>
    intro s l x hx
    cases l with
    | nil => simp [sampleGo] at hx
    | cons y ys =>
      simp only [sampleGo] at hx
      rcases List.mem_cons.mp hx with h | h
      · have hmem : (y :: ys).getD (s % (y :: ys).length) y ∈ y :: ys := by
          unfold List.getD
          cases hg : (y :: ys).get? (s % (y :: ys).length) with
          | none => simp
          | some a => simpa using List.get?_mem hg
        exact h ▸ hmem
      · exact (List.eraseIdx_sublist _ _).mem (ih _ _ _ h)

/-! ### Theorems for C4, C5 and C10 -/

/-- C4 counterexample: on an empty data file with a truthy sample size,
zero chunks are accumulated and `pd.concat` raises ValueError, so the
loader does not return the `min(sample_size, 0) = 0` rows the claim
predicts. -/
theorem load_chess_data_empty_raises :
    load_chess_data ([] : List Nat) (some 2) 0
      = Except.error "ValueError: No objects to concatenate"
    ∧ load_chess_data ([] : List Nat) (some 2) 0 ≠ Except.ok [] := by
  have h0 : load_chess_data ([] : List Nat) (some 2) 0
      = Except.error "ValueError: No objects to concatenate" := by
    unfold load_chess_data
    simp [chunksOf, accumLoop, pyTruthy]
  refine ⟨h0, ?_⟩
  rw [h0]
  intro h
  exact Except.noConfusion h

/-- C4 (amended): with a (truthy) sample size on a file with at least one
data row, the loader's chunk accumulation is exactly the spec's
accumulate-until-row-count-reaches-the-sample-size loop (the code's
`len(chunks) * chunk_size` test agrees with the true row count because
only the final chunk can be short), and the returned value is
`min(sample_size, accumulated_rows)` rows all drawn from the accumulated
rows; on an empty data file the loader instead raises ValueError. -/
theorem load_chess_data_sampled {α : Type} (rows : List α) (n : Nat) (e : Nat)
    (hn : 0 < n) (hrows : rows ≠ []) :
    accumLoop (chunksOf rows) n 0 = spec_accum (chunksOf rows) n 0
    ∧ (∃ out, load_chess_data rows (some n) e = Except.ok out
        ∧ out.length = min n ((spec_accum (chunksOf rows) n 0).flatten).length
        ∧ ∀ x ∈ out, x ∈ (spec_accum (chunksOf rows) n 0).flatten) := by
  have heq : accumLoop (chunksOf rows) n 0 = spec_accum (chunksOf rows) n 0 :=
    accumLoop_eq_spec _ (chunksOf_fullButLast rows) n 0 0 (by ring)
  have htr : pyTruthy (some n) = true := by
    simp only [pyTruthy, ne_eq, bne_iff_ne]
    omega
  refine ⟨heq, ?_⟩
  obtain ⟨y, ys, rfl⟩ : ∃ y ys, rows = y :: ys := by
    cases rows with
    | nil => exact absurd rfl hrows
    | cons y ys => exact ⟨y, ys, rfl⟩
  have hc : ∃ c cs, accumLoop (chunksOf (y :: ys)) n 0 = c :: cs := by
    rw [chunksOf]
    exact ⟨_, _, rfl⟩
  obtain ⟨c, cs, hc⟩ := hc
  have hspec : spec_accum (chunksOf (y :: ys)) n 0 = c :: cs := heq.symm.trans hc
  refine ⟨df_sample (c :: cs).flatten (min n (c :: cs).flatten.length) (some 42) e, ?_, ?_, ?_⟩
  · unfold load_chess_data
    simp only [htr, if_true, Option.getD_some]
    rw [hc]
  · rw [hspec]
    unfold df_sample
    exact sampleGo_length _ _ _ (Nat.min_le_right _ _)
  · intro x hx
    rw [hspec]
    exact sampleGo_mem _ _ _ _ hx

theorem load_chess_data_sampled_witness :
    0 < 2 ∧ ([1, 2, 3] : List Nat) ≠ []
    ∧ (accumLoop (chunksOf [1, 2, 3]) 2 0 = spec_accum (chunksOf [1, 2, 3]) 2 0
      ∧ (∃ out, load_chess_data [1, 2, 3] (some 2) 0 = Except.ok out
          ∧ out.length = min 2 ((spec_accum (chunksOf [1, 2, 3]) 2 0).flatten).length
          ∧ ∀ x ∈ out, x ∈ (spec_accum (chunksOf [1, 2, 3]) 2 0).flatten)) :=
  ⟨by decide, by decide, load_chess_data_sampled [1, 2, 3] 2 0 (by decide) (by decide)⟩

/-- C5: loader sampling is reproducible: the result is a deterministic
function of the file contents and sample size alone — the ambient
entropy never influences it, because the source pins `random_state=42`. -/
theorem load_chess_data_deterministic {α : Type} (rows : List α) (ss : Option Nat)
    (e1 e2 : Nat) : load_chess_data rows ss e1 = load_chess_data rows ss e2 := rfl

/-- C10: `sample_size=0` is falsy in `if sample_size:`, so the loader
skips the block-and-sample path and returns all rows without error,
exactly as when no sample size is given. -/
theorem load_chess_data_zero {α : Type} (rows : List α) (e : Nat) :
    load_chess_data rows (some 0) e = Except.ok rows
    ∧ load_chess_data rows none e = Except.ok rows
    ∧ load_chess_data rows (some 0) e = load_chess_data rows none e :=
  ⟨rfl, rfl, rfl⟩

end ChessGames
